import Mathlib

/-!
Shallow embedding of the TaherPatan/backend document-management service
(src/main.py, src/crud.py, src/models.py, src/schemas.py) in Lean 4.

Python dictionaries are modelled as association lists with overwrite
semantics; SQLAlchemy tables as lists of records together with an
auto-increment counter; `raise HTTPException` as an `Except` error value
paired with the (unchanged) state.  The module `src/auth.py` is imported
by the code but is not part of the source tree; the few definitions
needed from it are modelled from the spec and say so in their doc
comments.
-/

namespace Backend

/-- An HTTP error raised by a handler: `HTTPException(status_code, detail)`. -/
structure HTTPException where
  status_code : Nat
  detail : String
deriving Repr, DecidableEq

/-- Lookup in a Python dictionary modelled as an association list
(first binding for the key wins; bindings are kept key-distinct by
`dictSet`). -/
def dictFind {κ α : Type} [DecidableEq κ] (m : List (κ × α)) (k : κ) : Option α :=
  match m with
  | [] => none
  | (k2, v) :: rest => if k2 = k then some v else dictFind rest k

/-- Python dictionary assignment `m[k] = v`: overwrite the binding for
`k` if present, otherwise append a new binding. -/
def dictSet {κ α : Type} [DecidableEq κ] (m : List (κ × α)) (k : κ) (v : α) : List (κ × α) :=
  match m with
  | [] => [(k, v)]
  | (k2, v2) :: rest => if k2 = k then (k, v) :: rest else (k2, v2) :: dictSet rest k v

theorem dictFind_dictSet_self {κ α : Type} [DecidableEq κ]
    (m : List (κ × α)) (k : κ) (v : α) :
    dictFind (dictSet m k v) k = some v := by
  induction m with
  | nil => simp [dictSet, dictFind]
  | cons hd tl ih =>
      obtain ⟨k2, v2⟩ := hd
      by_cases h : k2 = k
      · simp [dictSet, dictFind, h]
      · simp [dictSet, dictFind, h, ih]

theorem dictFind_dictSet_of_ne {κ α : Type} [DecidableEq κ]
    (m : List (κ × α)) (k k2 : κ) (v : α) (h : k2 ≠ k) :
    dictFind (dictSet m k v) k2 = dictFind m k2 := by
  induction m with
  | nil => simp [dictSet, dictFind, Ne.symm h]
  | cons hd tl ih =>
      obtain ⟨k3, v3⟩ := hd
      by_cases h3 : k3 = k
      · subst h3
        simp [dictSet, dictFind, Ne.symm h]
      · simp [dictSet, dictFind, h3, ih]

theorem dictFind_dictSet_cases {κ α : Type} [DecidableEq κ]
    (m : List (κ × α)) (k k2 : κ) (v t : α)
    (h : dictFind (dictSet m k v) k2 = some t) :
    t = v ∨ dictFind m k2 = some t := by
  by_cases hk : k2 = k
  · subst hk
    rw [dictFind_dictSet_self] at h
    exact Or.inl (Option.some.inj h).symm
  · rw [dictFind_dictSet_of_ne m k k2 v hk] at h
    exact Or.inr h

/-- `schemas.IngestionTask`: document id, a status string (the source
comment enumerates pending, processing, completed, failed) and an
optional message. -/
structure IngestionTask where
  document_id : Nat
  status : String
  message : Option String := none
deriving Repr, DecidableEq

/-- The process-wide `ingestion_tasks` dictionary of `src/main.py`. -/
abbrev TaskMap := List (Nat × IngestionTask)

/-- First half of `process_ingestion_task`: if the document id is in the
mapping, set the entry's status to "processing"; otherwise do nothing
(the source logs and returns). -/
def processStart (tasks : TaskMap) (document_id : Nat) : TaskMap :=
  match dictFind tasks document_id with
  | some t => dictSet tasks document_id { t with status := "processing" }
  | none => tasks

/-- Second half of `process_ingestion_task`: after the simulated delay,
set the entry's status to "completed" and its message to the success
string.  In the source these writes sit under the same membership check
as the first half and nothing ever removes entries from the mapping, so
guarding them by a fresh lookup is equivalent. -/
def processFinish (tasks : TaskMap) (document_id : Nat) : TaskMap :=
  match dictFind tasks document_id with
  | some t =>
      dictSet tasks document_id
        { t with status := "completed", message := some "Ingestion completed successfully." }
  | none => tasks

/-- `process_ingestion_task(document_id)` from `src/main.py` run to
completion: the "processing" write followed by the "completed" write. -/
def process_ingestion_task (tasks : TaskMap) (document_id : Nat) : TaskMap :=
  processFinish (processStart tasks document_id) document_id

/-- Modelled from the spec: `get_password_hash` lives in `src/auth.py`,
which is imported by `src/crud.py` and the tests but is not part of the
source tree.  Section 4.1 describes `hash` as a deterministic-salted
one-way transform whose verification succeeds exactly for the original
password; the digest is modelled as an opaque tag that is injective in
the (salt, password) pair, with the library's internal salt choice
surfaced as an explicit argument. -/
def get_password_hash (salt : String) (password : String) : String × String × String :=
  (salt, salt, password)

/-- Modelled from the spec: `verify_password` from the missing
`src/auth.py`, per section 4.1 true iff the password matches the
original input to `hash` — it recomputes the digest with the stored
salt and compares. -/
def verify_password (password : String) (hashed : String × String × String) : Bool :=
  (hashed.1, password) == hashed.2

/-- A row of the `users` table (`models.User`).  The `role` column is a
plain string with SQL default "viewer" and no validation; it is nullable
(an explicit null in the registration payload is stored as is), hence
`Option String`. -/
structure User where
  id : Nat
  username : String
  email : String
  hashed_password : String × String × String
  is_active : Bool
  role : Option String
deriving Repr, DecidableEq

/-- `schemas.UserCreate`: the registration payload.  The pydantic field
`role : Optional[str] = "viewer"` defaults to "viewer" when the field is
absent, and parses an explicit null to `none`. -/
structure UserCreate where
  username : String
  email : String
  password : String
  role : Option String := some "viewer"
deriving Repr, DecidableEq

/-- The `users` table with its auto-increment primary-key counter. -/
structure UserDB where
  next_id : Nat
  users : List User
deriving Repr, DecidableEq

/-- `crud.get_user`: first row whose id matches. -/
def crud_get_user (db : UserDB) (user_id : Nat) : Option User :=
  db.users.find? (fun u => u.id == user_id)

/-- `crud.get_user_by_username`. -/
def crud_get_user_by_username (db : UserDB) (username : String) : Option User :=
  db.users.find? (fun u => u.username == username)

/-- `crud.get_user_by_email`. -/
def crud_get_user_by_email (db : UserDB) (email : String) : Option User :=
  db.users.find? (fun u => u.email == email)

/-- `crud.create_user`: hash the password, insert a row (fresh id,
`is_active` true by column default, role stored exactly as supplied) and
return it.  `salt` is the hashing library's internal salt choice made
explicit. -/
def crud_create_user (db : UserDB) (user : UserCreate) (salt : String) : User × UserDB :=
  let db_user : User :=
    { id := db.next_id
      username := user.username
      email := user.email
      hashed_password := get_password_hash salt user.password
      is_active := true
      role := user.role }
  (db_user, { next_id := db.next_id + 1, users := db.users ++ [db_user] })

/-- `crud.update_user_role`: look the user up; if present overwrite its
role column with the supplied string and return the updated row, else
return `None`.  Ids are primary keys, so updating every row with the
matching id updates the single fetched row. -/
def crud_update_user_role (db : UserDB) (user_id : Nat) (role : String) :
    Option User × UserDB :=
  match crud_get_user db user_id with
  | none => (none, db)
  | some u =>
      let u2 := { u with role := some role }
      (some u2, { db with users := db.users.map (fun v => if v.id = user_id then u2 else v) })

/-- `crud.delete_user`: look the user up; if present delete the row and
return it, else return `None`. -/
def crud_delete_user (db : UserDB) (user_id : Nat) : Option User × UserDB :=
  match crud_get_user db user_id with
  | none => (none, db)
  | some u => (some u, { db with users := db.users.filter (fun v => v.id != user_id) })

/-- A row of the `documents` table (`models.Document`).  Filenames and
titles are Python strings, modelled as character lists.  `upload_time`
is an abstract timestamp. -/
structure Document where
  id : Nat
  title : List Char
  filename : List Char
  upload_time : Nat
  owner_id : Nat
deriving Repr, DecidableEq

/-- The `documents` table with its auto-increment primary-key counter. -/
structure DocumentDB where
  next_id : Nat
  docs : List Document
deriving Repr, DecidableEq

/-- `crud.get_document`: first row whose id matches. -/
def crud_get_document (db : DocumentDB) (document_id : Nat) : Option Document :=
  db.docs.find? (fun d => d.id == document_id)

/-- `crud.create_document`: insert a row with a fresh id and return it. -/
def crud_create_document (db : DocumentDB) (title : List Char) (owner_id : Nat)
    (filename : List Char) (now : Nat) : Document × DocumentDB :=
  let db_document : Document :=
    { id := db.next_id
      title := title
      filename := filename
      upload_time := now
      owner_id := owner_id }
  (db_document, { next_id := db.next_id + 1, docs := db.docs ++ [db_document] })

/-- `crud.delete_document`: look the document up; if present delete the
row and return it, else return `None`. -/
def crud_delete_document (db : DocumentDB) (document_id : Nat) :
    Option Document × DocumentDB :=
  match crud_get_document db document_id with
  | none => (none, db)
  | some d => (some d, { db with docs := db.docs.filter (fun v => v.id != document_id) })

/-- Python `str.split(sep)` for a one-character separator: splits into
the (possibly empty) groups between separator occurrences; the result is
never empty (`"".split(".") == [""]`). -/
def pySplitOn (sep : Char) : List Char → List (List Char)
  | [] => [[]]
  | c :: cs =>
      if c = sep then [] :: pySplitOn sep cs
      else
        match pySplitOn sep cs with
        | [] => [[c]]
        | g :: gs => (c :: g) :: gs

/-- The title computation of the `create_document` handler in
`src/main.py`: `file.filename.split(".")[0] if "." in file.filename
else file.filename`. -/
def document_title (filename : List Char) : List Char :=
  if filename.contains '.' then (pySplitOn '.' filename).headI else filename

/-- The blob store: the upload directory as a mapping from filename to
raw bytes, written with overwrite semantics (`open(..., "wb")`). -/
abbrev FileStore := List (List Char × List Nat)

/-- The `POST /users/` handler `create_user` in `src/main.py`: reject a
taken username, then a taken email, each with a 400, otherwise delegate
to `crud.create_user`.  The state component of the result is the users
table after the call. -/
def create_user_endpoint (db : UserDB) (user : UserCreate) (salt : String) :
    Except HTTPException User × UserDB :=
  match crud_get_user_by_username db user.username with
  | some _ => (.error ⟨400, "Username already registered"⟩, db)
  | none =>
      match crud_get_user_by_email db user.email with
      | some _ => (.error ⟨400, "Email already registered"⟩, db)
      | none =>
          let r := crud_create_user db user salt
          (.ok r.1, r.2)

/-- The `PUT /users/{user_id}/role` handler `update_user_role` in
`src/main.py`: 403 unless the caller's role is "admin", then delegate to
`crud.update_user_role` and turn its `None` into a 404. -/
def update_user_role_endpoint (current_user : User) (db : UserDB) (user_id : Nat)
    (role : String) : Except HTTPException User × UserDB :=
  if current_user.role ≠ some "admin" then
    (.error ⟨403, "Not authorized to update user roles"⟩, db)
  else
    match crud_update_user_role db user_id role with
    | (none, db2) => (.error ⟨404, "User not found"⟩, db2)
    | (some u, db2) => (.ok u, db2)

/-- The `DELETE /users/{user_id}` handler `delete_user` in
`src/main.py`: 403 unless the caller's role is "admin", then delegate to
`crud.delete_user` and turn its `None` into a 404. -/
def delete_user_endpoint (current_user : User) (db : UserDB) (user_id : Nat) :
    Except HTTPException User × UserDB :=
  if current_user.role ≠ some "admin" then
    (.error ⟨403, "Not authorized to delete users"⟩, db)
  else
    match crud_delete_user db user_id with
    | (none, db2) => (.error ⟨404, "User not found"⟩, db2)
    | (some u, db2) => (.ok u, db2)

/-- The `POST /documents/` handler `create_document` in `src/main.py`:
save the raw bytes under the original filename, then record metadata
whose title is the filename stem and whose owner is the caller. -/
def create_document_endpoint (current_user : User) (db : DocumentDB) (fs : FileStore)
    (filename : List Char) (content : List Nat) (now : Nat) :
    Document × DocumentDB × FileStore :=
  let fs2 := dictSet fs filename content
  let r := crud_create_document db (document_title filename) current_user.id filename now
  (r.1, r.2, fs2)

/-- The `GET /documents/{document_id}` handler `read_document` in
`src/main.py`: 404 when absent, otherwise the row — with no ownership or
role check. -/
def read_document_endpoint (current_user : User) (db : DocumentDB) (document_id : Nat) :
    Except HTTPException Document :=
  match crud_get_document db document_id with
  | none => .error ⟨404, "Document not found"⟩
  | some d => .ok d

/-- `crud.get_documents`: `db.query(models.Document).offset(skip).limit(limit).all()`,
a page of the full table in insertion order. -/
def crud_get_documents (db : DocumentDB) (skip : Nat) (limit : Nat) : List Document :=
  (db.docs.drop skip).take limit

/-- The `GET /documents/` handler `read_documents` in `src/main.py`
(defaults skip 0, limit 100): the page of the full table, not filtered
by the current user. -/
def read_documents_endpoint (current_user : User) (db : DocumentDB)
    (skip : Nat) (limit : Nat) : List Document :=
  crud_get_documents db skip limit

/-- The `GET /documents/{document_id}/download` handler
`download_document` in `src/main.py`: 404 when the metadata row is
absent, 404 when the blob under the recorded filename is missing from
the upload directory, otherwise the file response (served path under
the recorded filename, together with the stored bytes) — with no
ownership or role check. -/
def download_document_endpoint (current_user : User) (db : DocumentDB) (fs : FileStore)
    (document_id : Nat) : Except HTTPException (List Char × List Nat) :=
  match crud_get_document db document_id with
  | none => .error ⟨404, "Document not found"⟩
  | some d =>
      match dictFind fs d.filename with
      | none => .error ⟨404, "File not found on server"⟩
      | some content => .ok (d.filename, content)

/-- The `DELETE /documents/{document_id}` handler `delete_document` in
`src/main.py`: 404 when absent, otherwise delegate to
`crud.delete_document` and return whatever it returns — with no
ownership or role check. -/
def delete_document_endpoint (current_user : User) (db : DocumentDB) (document_id : Nat) :
    Except HTTPException (Option Document) × DocumentDB :=
  match crud_get_document db document_id with
  | none => (.error ⟨404, "Document not found"⟩, db)
  | some _ =>
      let r := crud_delete_document db document_id
      (.ok r.1, r.2)

/-- The `POST /ingest/{document_id}` handler `trigger_ingestion` in
`src/main.py`: 404 when the document row is absent; 400 when the task
mapping holds an entry for the id whose status is "pending" or
"processing"; otherwise insert a fresh "pending" entry, schedule the
background body, and return the entry.  The second component is the
task mapping after the call. -/
def trigger_ingestion (current_user : User) (db : DocumentDB) (tasks : TaskMap)
    (document_id : Nat) : Except HTTPException IngestionTask × TaskMap :=
  match crud_get_document db document_id with
  | none => (.error ⟨404, "Document not found"⟩, tasks)
  | some _ =>
      match dictFind tasks document_id with
      | some t =>
          if t.status == "pending" || t.status == "processing" then
            (.error ⟨400, "Ingestion for document ID " ++ toString document_id
                ++ " is already " ++ t.status ++ "."⟩, tasks)
          else
            let ingestion_task : IngestionTask :=
              { document_id := document_id, status := "pending" }
            (.ok ingestion_task, dictSet tasks document_id ingestion_task)
      | none =>
          let ingestion_task : IngestionTask :=
            { document_id := document_id, status := "pending" }
          (.ok ingestion_task, dictSet tasks document_id ingestion_task)

/-- The `GET /ingestion/status` handler: a snapshot of the mapping. -/
def get_ingestion_status (current_user : User) (tasks : TaskMap) : TaskMap :=
  tasks

/-- The token-verification failures of spec section 4.1. -/
inductive TokenError where
  | InvalidToken
  | ExpiredToken
deriving Repr, DecidableEq

/-- Modelled from the spec: the signing primitive of the missing
`src/auth.py` (the JWT HMAC under `settings.secret_key`).  Section 4.1
says the signature covers the full payload and tampering invalidates
it, so the MAC is modelled as an opaque tag injective in the
(secret, subject, expiry) triple. -/
def sign (secret : String) (subject : String) (expiry : Nat) : String × String × Nat :=
  (secret, subject, expiry)

/-- A signed token: subject, absolute expiry, and signature. -/
structure SignedToken where
  sub : String
  exp : Nat
  sig : String × String × Nat
deriving Repr, DecidableEq

/-- Modelled from the spec: `issue_token` (`create_access_token` of the
missing `src/auth.py`) — a signed token embedding the subject and the
absolute expiry `now + ttl`. -/
def issue_token (secret : String) (subject : String) (ttl : Nat) (now : Nat) : SignedToken :=
  { sub := subject, exp := now + ttl, sig := sign secret subject (now + ttl) }

/-- Modelled from the spec: `verify_token` of the missing `src/auth.py`
— fails with `InvalidToken` when the signature does not verify against
the server secret, with `ExpiredToken` when the current time exceeds
the embedded expiry, and otherwise returns the embedded subject. -/
def verify_token (secret : String) (token : SignedToken) (now : Nat) :
    Except TokenError String :=
  if token.sig ≠ sign secret token.sub token.exp then .error .InvalidToken
  else if token.exp < now then .error .ExpiredToken
  else .ok token.sub

/-- One interleaving step of the ingestion subsystem: an HTTP trigger, a
status query, or one of the two writes of the background body
`process_ingestion_task` (which runs concurrently, so its two
transitions are separate steps). -/
inductive IngestOp where
  | trigger (current_user : User) (db : DocumentDB) (document_id : Nat)
  | runStart (document_id : Nat)
  | runFinish (document_id : Nat)
  | statusQuery (current_user : User)

/-- Effect of one ingestion-subsystem step on the shared task mapping. -/
def applyOp (tasks : TaskMap) : IngestOp → TaskMap
  | .trigger u db document_id => (trigger_ingestion u db tasks document_id).2
  | .runStart document_id => processStart tasks document_id
  | .runFinish document_id => processFinish tasks document_id
  | .statusQuery _ => tasks

/-- Effect of a sequence of ingestion-subsystem steps. -/
def applyOps (tasks : TaskMap) : List IngestOp → TaskMap
  | [] => tasks
  | op :: ops => applyOps (applyOp tasks op) ops

/-- The statuses the ingestion subsystem actually writes. -/
def TaskStatusOk (s : String) : Prop :=
  s = "pending" ∨ s = "processing" ∨ s = "completed"

instance (s : String) : Decidable (TaskStatusOk s) := by
  unfold TaskStatusOk
  infer_instance

/-- Every entry of the task mapping has a written status. -/
def MapOk (tasks : TaskMap) : Prop :=
  ∀ document_id t, dictFind tasks document_id = some t → TaskStatusOk t.status

theorem mapOk_dictSet (tasks : TaskMap) (k : Nat) (v : IngestionTask)
    (hm : MapOk tasks) (hv : TaskStatusOk v.status) : MapOk (dictSet tasks k v) := by
  intro document_id t ht
  rcases dictFind_dictSet_cases tasks k document_id v t ht with h | h
  · exact h ▸ hv
  · exact hm document_id t h

theorem trigger_ingestion_snd (u : User) (db : DocumentDB) (tasks : TaskMap)
    (document_id : Nat) :
    (trigger_ingestion u db tasks document_id).2 = tasks ∨
    (trigger_ingestion u db tasks document_id).2 =
      dictSet tasks document_id { document_id := document_id, status := "pending" } := by
  unfold trigger_ingestion
  cases crud_get_document db document_id with
  | none => exact Or.inl rfl
  | some d =>
      cases dictFind tasks document_id with
      | none => exact Or.inr rfl
      | some t =>
          by_cases hs : (t.status == "pending" || t.status == "processing") = true
          · simp [hs]
          · simp [hs]

theorem mapOk_processStart (tasks : TaskMap) (document_id : Nat) (hm : MapOk tasks) :
    MapOk (processStart tasks document_id) := by
  unfold processStart
  cases dictFind tasks document_id with
  | none => exact hm
  | some t =>
      exact mapOk_dictSet tasks document_id { t with status := "processing" } hm
        (Or.inr (Or.inl rfl))

theorem mapOk_processFinish (tasks : TaskMap) (document_id : Nat) (hm : MapOk tasks) :
    MapOk (processFinish tasks document_id) := by
  unfold processFinish
  cases dictFind tasks document_id with
  | none => exact hm
  | some t =>
      exact mapOk_dictSet tasks document_id
        { t with status := "completed", message := some "Ingestion completed successfully." }
        hm (Or.inr (Or.inr rfl))

theorem mapOk_applyOp (tasks : TaskMap) (op : IngestOp) (hm : MapOk tasks) :
    MapOk (applyOp tasks op) := by
  cases op with
  | trigger u db document_id =>
      show MapOk (trigger_ingestion u db tasks document_id).2
      rcases trigger_ingestion_snd u db tasks document_id with h | h
      · rw [h]
        exact hm
      · rw [h]
        exact mapOk_dictSet tasks document_id
          { document_id := document_id, status := "pending" } hm (Or.inl rfl)
  | runStart document_id => exact mapOk_processStart tasks document_id hm
  | runFinish document_id => exact mapOk_processFinish tasks document_id hm
  | statusQuery u => exact hm

theorem mapOk_applyOps (tasks : TaskMap) (ops : List IngestOp) (hm : MapOk tasks) :
    MapOk (applyOps tasks ops) := by
  induction ops generalizing tasks with
  | nil => exact hm
  | cons op ops ih => exact ih (applyOp tasks op) (mapOk_applyOp tasks op hm)

theorem find_filter_ne_eq_none {α : Type} (f : α → Nat) (l : List α) (k : Nat) :
    (l.filter (fun v => f v != k)).find? (fun v => f v == k) = none := by
  induction l with
  | nil => rfl
  | cons a l ih =>
      by_cases h : f a = k
      · simp [List.filter_cons, h, ih]
      · simp [List.filter_cons, List.find?_cons, h, ih]

theorem pySplitOn_ne_nil (sep : Char) (l : List Char) : pySplitOn sep l ≠ [] := by
  cases l with
  | nil => simp [pySplitOn]
  | cons c cs =>
      by_cases h : c = sep
      · simp [pySplitOn, h]
      · simp only [pySplitOn, h, if_false]
        cases pySplitOn sep cs <;> simp

theorem headI_pySplitOn (l : List Char) :
    (pySplitOn '.' l).headI = l.takeWhile (fun c => c != '.') := by
  induction l with
  | nil => rfl
  | cons c cs ih =>
      by_cases h : c = '.'
      · simp [pySplitOn, h, List.takeWhile_cons]
      · cases hsplit : pySplitOn '.' cs with
        | nil => exact absurd hsplit (pySplitOn_ne_nil '.' cs)
        | cons g gs =>
            rw [hsplit] at ih
            simp only [pySplitOn, h, if_false, hsplit, List.takeWhile_cons, List.headI]
            simp only [List.headI] at ih
            simp [h, ih]

/-- Whether a stored role is one of the three enumerated values of the
data-model invariant (spec section 3). -/
def RoleOk (u : User) : Prop :=
  u.role = some "admin" ∨ u.role = some "editor" ∨ u.role = some "viewer"

instance (u : User) : Decidable (RoleOk u) := by
  unfold RoleOk
  infer_instance

/-- Fixture: a password hash for the sample users. -/
def sampleHash : String × String × String := get_password_hash "salt1" "password123"

/-- Fixture: a non-admin user. -/
def sampleViewer : User :=
  { id := 1, username := "alice", email := "alice@example.com",
    hashed_password := sampleHash, is_active := true, role := some "viewer" }

/-- Fixture: an admin user. -/
def sampleAdmin : User :=
  { id := 2, username := "root", email := "root@example.com",
    hashed_password := sampleHash, is_active := true, role := some "admin" }

/-- Fixture: a users table holding the two sample users. -/
def sampleUserDB : UserDB := { next_id := 3, users := [sampleViewer, sampleAdmin] }

/-- Fixture: a stored document owned by the viewer. -/
def sampleDoc : Document :=
  { id := 1, title := ['d'], filename := ['d', '.', 't', 'x', 't'],
    upload_time := 0, owner_id := 1 }

/-- Fixture: a documents table holding the sample document. -/
def sampleDocDB : DocumentDB := { next_id := 2, docs := [sampleDoc] }

/-- Claim C1: for a document that exists, if the ingestion-task mapping
holds an entry for its id with status "pending" or "processing" then
`trigger_ingestion` fails with the AlreadyRunning 400 error and leaves
the mapping unchanged; otherwise (no entry, or an entry whose status is
"completed" or "failed") it inserts a fresh entry with status "pending"
and returns that entry. -/
theorem claim_C1_trigger (u : User) (db : DocumentDB) (tasks : TaskMap)
    (document_id : Nat) (d : Document)
    (hdoc : crud_get_document db document_id = some d) :
    (∀ t, dictFind tasks document_id = some t →
      (t.status = "pending" ∨ t.status = "processing") →
      trigger_ingestion u db tasks document_id =
        (.error ⟨400, "Ingestion for document ID " ++ toString document_id
            ++ " is already " ++ t.status ++ "."⟩, tasks)) ∧
    ((dictFind tasks document_id = none ∨
      ∃ t, dictFind tasks document_id = some t ∧
        (t.status = "completed" ∨ t.status = "failed")) →
      trigger_ingestion u db tasks document_id =
        (.ok { document_id := document_id, status := "pending" },
         dictSet tasks document_id { document_id := document_id, status := "pending" })) := by
  constructor
  · intro t hfind hst
    unfold trigger_ingestion
    rw [hdoc, hfind]
    have hb : (t.status == "pending" || t.status == "processing") = true := by
      rcases hst with h | h <;> simp [h]
    simp [hb]
  · intro hcase
    unfold trigger_ingestion
    rw [hdoc]
    rcases hcase with hnone | ⟨t, hfind, hst⟩
    · rw [hnone]
    · rw [hfind]
      have hb : (t.status == "pending" || t.status == "processing") = false := by
        rcases hst with h | h <;> rw [h] <;> decide
      simp [hb]

theorem claim_C1_trigger_witness :
    crud_get_document sampleDocDB 1 = some sampleDoc ∧
    trigger_ingestion sampleViewer sampleDocDB [] 1 =
      (.ok { document_id := 1, status := "pending" },
       [(1, { document_id := 1, status := "pending" })]) :=
  ⟨rfl, (claim_C1_trigger sampleViewer sampleDocDB [] 1 sampleDoc rfl).2 (Or.inl rfl)⟩

/-- Claim C2: the background body `process_ingestion_task`, when the
document id is present in the mapping, first sets the entry's status to
"processing" and finally leaves it with status "completed" and the
message "Ingestion completed successfully."; when the id is absent the
mapping is left entirely unchanged. -/
theorem claim_C2_background :
    (∀ (tasks : TaskMap) (document_id : Nat) (t : IngestionTask),
      dictFind tasks document_id = some t →
      dictFind (processStart tasks document_id) document_id =
        some { t with status := "processing" } ∧
      dictFind (process_ingestion_task tasks document_id) document_id =
        some { t with status := "completed",
                      message := some "Ingestion completed successfully." }) ∧
    (∀ (tasks : TaskMap) (document_id : Nat),
      dictFind tasks document_id = none →
      process_ingestion_task tasks document_id = tasks) := by
  constructor
  · intro tasks document_id t hfind
    have hstart : processStart tasks document_id =
        dictSet tasks document_id { t with status := "processing" } := by
      unfold processStart
      rw [hfind]
    have hfind2 : dictFind (processStart tasks document_id) document_id =
        some { t with status := "processing" } := by
      rw [hstart]
      exact dictFind_dictSet_self tasks document_id _
    refine ⟨hfind2, ?_⟩
    unfold process_ingestion_task processFinish
    rw [hfind2]
    rw [hstart]
    exact dictFind_dictSet_self _ document_id _
  · intro tasks document_id hfind
    unfold process_ingestion_task
    have hstart : processStart tasks document_id = tasks := by
      unfold processStart
      rw [hfind]
    rw [hstart]
    unfold processFinish
    rw [hfind]

theorem claim_C2_background_witness :
    dictFind [(1, ({ document_id := 1, status := "pending" } : IngestionTask))] 1 =
      some { document_id := 1, status := "pending" } ∧
    dictFind
        (process_ingestion_task
          [(1, ({ document_id := 1, status := "pending" } : IngestionTask))] 1) 1 =
      some { document_id := 1, status := "completed",
             message := some "Ingestion completed successfully." } :=
  ⟨rfl,
    (claim_C2_background.1 [(1, { document_id := 1, status := "pending" })] 1
      { document_id := 1, status := "pending" } rfl).2⟩

/-- Claim C9: starting from the empty ingestion-task mapping, no
interleaving of trigger, background-run and status-query steps ever
yields a task whose status is "failed"; every reachable task status is
"pending", "processing" or "completed". -/
theorem claim_C9_no_failed (ops : List IngestOp) (document_id : Nat) (t : IngestionTask)
    (h : dictFind (applyOps [] ops) document_id = some t) :
    t.status ≠ "failed" ∧ TaskStatusOk t.status := by
  have hnil : MapOk ([] : TaskMap) := by
    intro id t2 h2
    simp [dictFind] at h2
  have hok := mapOk_applyOps [] ops hnil document_id t h
  refine ⟨?_, hok⟩
  rcases hok with h1 | h1 | h1 <;> rw [h1] <;> decide

/-- Fixture: a full run of the sample: trigger document 1, then its
background body starts and finishes. -/
def sampleOps : List IngestOp :=
  [.trigger sampleViewer sampleDocDB 1, .runStart 1, .runFinish 1]

/-- Fixture: the task record after a completed background run. -/
def sampleDone : IngestionTask :=
  { document_id := 1, status := "completed",
    message := some "Ingestion completed successfully." }

theorem claim_C9_no_failed_witness :
    dictFind (applyOps [] sampleOps) 1 = some sampleDone ∧
    sampleDone.status ≠ "failed" ∧ TaskStatusOk sampleDone.status :=
  ⟨rfl, claim_C9_no_failed sampleOps 1 sampleDone rfl⟩

/-- Claim C3: role update and user deletion by a non-admin caller fail
with the 403 Forbidden error before any existence check and leave the
table unchanged; by an admin on a missing target id they fail with the
404 NotFound error; by an admin on an existing target, role update
returns the user with the new role and deletion returns the removed
user, which is gone from the table afterwards. -/
theorem claim_C3_admin_gate (current_user : User) (db : UserDB) (user_id : Nat)
    (role : String) :
    (current_user.role ≠ some "admin" →
      update_user_role_endpoint current_user db user_id role =
        (.error ⟨403, "Not authorized to update user roles"⟩, db) ∧
      delete_user_endpoint current_user db user_id =
        (.error ⟨403, "Not authorized to delete users"⟩, db)) ∧
    (current_user.role = some "admin" → crud_get_user db user_id = none →
      update_user_role_endpoint current_user db user_id role =
        (.error ⟨404, "User not found"⟩, db) ∧
      delete_user_endpoint current_user db user_id =
        (.error ⟨404, "User not found"⟩, db)) ∧
    (∀ u, current_user.role = some "admin" → crud_get_user db user_id = some u →
      update_user_role_endpoint current_user db user_id role =
        (.ok { u with role := some role },
         { db with
            users := db.users.map (fun v => if v.id = user_id then { u with role := some role } else v) }) ∧
      delete_user_endpoint current_user db user_id =
        (.ok u, { db with users := db.users.filter (fun v => v.id != user_id) }) ∧
      crud_get_user (delete_user_endpoint current_user db user_id).2 user_id = none) := by
  refine ⟨?_, ?_, ?_⟩
  · intro hrole
    unfold update_user_role_endpoint delete_user_endpoint
    rw [if_pos hrole, if_pos hrole]
    exact ⟨rfl, rfl⟩
  · intro hrole hfind
    have hadmin : ¬ current_user.role ≠ some "admin" := by simp [hrole]
    unfold update_user_role_endpoint delete_user_endpoint
    rw [if_neg hadmin, if_neg hadmin]
    unfold crud_update_user_role crud_delete_user
    rw [hfind]
    exact ⟨rfl, rfl⟩
  · intro u hrole hfind
    have hadmin : ¬ current_user.role ≠ some "admin" := by simp [hrole]
    have hupd : update_user_role_endpoint current_user db user_id role =
        (.ok { u with role := some role },
         { db with
            users := db.users.map (fun v => if v.id = user_id then { u with role := some role } else v) }) := by
      unfold update_user_role_endpoint
      rw [if_neg hadmin]
      unfold crud_update_user_role
      rw [hfind]
    have hdel : delete_user_endpoint current_user db user_id =
        (.ok u, { db with users := db.users.filter (fun v => v.id != user_id) }) := by
      unfold delete_user_endpoint
      rw [if_neg hadmin]
      unfold crud_delete_user
      rw [hfind]
    refine ⟨hupd, hdel, ?_⟩
    rw [hdel]
    exact find_filter_ne_eq_none (fun v => v.id) db.users user_id

theorem claim_C3_admin_gate_witness :
    sampleAdmin.role = some "admin" ∧
    crud_get_user sampleUserDB 1 = some sampleViewer ∧
    update_user_role_endpoint sampleAdmin sampleUserDB 1 "editor" =
      (.ok { sampleViewer with role := some "editor" },
       { sampleUserDB with users :=
          [{ sampleViewer with role := some "editor" }, sampleAdmin] }) := by
  refine ⟨rfl, rfl, ?_⟩
  have h := ((claim_C3_admin_gate sampleAdmin sampleUserDB 1 "editor").2.2
    sampleViewer rfl rfl).1
  rw [h]
  rfl

/-- Claim C4: registration checks the username first (failing with the
400 duplicate-username error), then the email (failing with the 400
duplicate-email error), leaving the users table unchanged on either
failure; when both are free it creates and returns the new user, which
is appended to the table. -/
theorem claim_C4_registration (db : UserDB) (user : UserCreate) (salt : String) :
    (∀ u, crud_get_user_by_username db user.username = some u →
      create_user_endpoint db user salt =
        (.error ⟨400, "Username already registered"⟩, db)) ∧
    (crud_get_user_by_username db user.username = none →
     ∀ u, crud_get_user_by_email db user.email = some u →
      create_user_endpoint db user salt =
        (.error ⟨400, "Email already registered"⟩, db)) ∧
    (crud_get_user_by_username db user.username = none →
     crud_get_user_by_email db user.email = none →
      create_user_endpoint db user salt =
        (.ok (crud_create_user db user salt).1, (crud_create_user db user salt).2) ∧
      (crud_create_user db user salt).2.users =
        db.users ++ [(crud_create_user db user salt).1]) := by
  refine ⟨?_, ?_, ?_⟩
  · intro u hu
    unfold create_user_endpoint
    rw [hu]
  · intro hun u he
    unfold create_user_endpoint
    rw [hun, he]
  · intro hun he
    constructor
    · unfold create_user_endpoint
      rw [hun, he]
    · rfl

/-- Fixture: a registration payload with a fresh username and email. -/
def sampleCreate : UserCreate :=
  { username := "bob", email := "bob@example.com", password := "pw" }

theorem claim_C4_registration_witness :
    crud_get_user_by_username sampleUserDB "bob" = none ∧
    crud_get_user_by_email sampleUserDB "bob@example.com" = none ∧
    create_user_endpoint sampleUserDB sampleCreate "s2" =
      (.ok (crud_create_user sampleUserDB sampleCreate "s2").1,
       (crud_create_user sampleUserDB sampleCreate "s2").2) :=
  ⟨rfl, rfl, ((claim_C4_registration sampleUserDB sampleCreate "s2").2.2 rfl rfl).1⟩

/-- Claim C5: verifying a freshly issued token at issuance time returns
the original subject; verifying an issued token after its embedded
expiry has passed fails with `ExpiredToken`; verifying a token whose
signature does not verify against the server secret — in particular an
issued token whose subject was tampered with — fails with
`InvalidToken`. -/
theorem claim_C5_tokens (secret subject : String) (ttl now later : Nat) :
    verify_token secret (issue_token secret subject ttl now) now = .ok subject ∧
    (now + ttl < later →
      verify_token secret (issue_token secret subject ttl now) later =
        .error .ExpiredToken) ∧
    (∀ token : SignedToken, token.sig ≠ sign secret token.sub token.exp →
      verify_token secret token now = .error .InvalidToken) ∧
    (∀ sub2, sub2 ≠ subject →
      verify_token secret { issue_token secret subject ttl now with sub := sub2 } now =
        .error .InvalidToken) := by
  refine ⟨?_, ?_, ?_, ?_⟩
  · unfold verify_token issue_token
    simp
  · intro hlate
    unfold verify_token issue_token
    simp [hlate]
  · intro token hsig
    unfold verify_token
    rw [if_pos hsig]
  · intro sub2 hne
    unfold verify_token issue_token
    have hsig : (sign secret subject (now + ttl) : String × String × Nat) ≠
        sign secret sub2 (now + ttl) := by
      unfold sign
      simp [Ne.symm hne]
    simp only []
    rw [if_pos hsig]

theorem claim_C5_tokens_witness :
    (0 + 5 < 10 ∧
      verify_token "k" (issue_token "k" "alice" 5 0) 10 = .error .ExpiredToken) ∧
    ("mallory" ≠ "alice" ∧
      verify_token "k" { issue_token "k" "alice" 5 0 with sub := "mallory" } 0 =
        .error .InvalidToken) :=
  ⟨⟨by decide, (claim_C5_tokens "k" "alice" 5 0 10).2.1 (by decide)⟩,
   ⟨by decide, (claim_C5_tokens "k" "alice" 5 0 10).2.2.2 "mallory" (by decide)⟩⟩

/-- Claim C6: password verification round-trips with hashing — for any
salt and password, verifying the password against its hash succeeds,
and verifying the password with an extra character appended fails. -/
theorem claim_C6_password_roundtrip (salt password : String) :
    verify_password password (get_password_hash salt password) = true ∧
    verify_password (password ++ "x") (get_password_hash salt password) = false := by
  constructor
  · unfold verify_password get_password_hash
    simp
  · unfold verify_password get_password_hash
    have hne : password ++ "x" ≠ password := by
      intro h
      have hlen := congrArg String.length h
      rw [String.length_append] at hlen
      have hx : "x".length = 1 := rfl
      omega
    simp [hne]

/-- Claim C8: the document title recorded on upload is the filename
stem: `create_document` stores `document_title filename` as the title;
for a filename containing a "." that is the prefix before the first
".", for one without a "." it is the whole filename; in particular
"a.b.c" gives "a" and ".b" gives the empty string. -/
theorem claim_C8_title_stem :
    (∀ (u : User) (db : DocumentDB) (fs : FileStore) (filename : List Char)
        (content : List Nat) (now : Nat),
      (create_document_endpoint u db fs filename content now).1.title =
        document_title filename) ∧
    (∀ filename : List Char,
      document_title filename =
        if filename.contains '.' then filename.takeWhile (fun c => c != '.')
        else filename) ∧
    document_title ['a', '.', 'b', '.', 'c'] = ['a'] ∧
    document_title ['.', 'b'] = [] ∧
    document_title ['n', 'o', 'd', 'o', 't'] = ['n', 'o', 'd', 'o', 't'] := by
  refine ⟨?_, ?_, by decide, by decide, by decide⟩
  · intro u db fs filename content now
    rfl
  · intro filename
    unfold document_title
    by_cases h : filename.contains '.'
    · rw [if_pos h, if_pos h, headI_pySplitOn]
    · rw [if_neg h, if_neg h]

/-- Fixture: an empty users table. -/
def emptyUserDB : UserDB := { next_id := 1, users := [] }

/-- Fixture: a registration payload carrying a role string outside the
enumerated set. -/
def roleCreate : UserCreate :=
  { username := "eve", email := "eve@example.com", password := "pw",
    role := some "superuser" }

/-- Fixture: the user record stored for that registration. -/
def roleUser : User := (crud_create_user emptyUserDB roleCreate "s3").1

/-- Claim C7 is false on the code: registration stores any
client-supplied role string unvalidated, so a user reachable through
the public registration operation can carry the role "superuser",
which is none of admin, editor, viewer. -/
theorem claim_C7_counterexample :
    (create_user_endpoint emptyUserDB roleCreate "s3").1 = .ok roleUser ∧
    roleUser.role = some "superuser" ∧ ¬ RoleOk roleUser := by
  refine ⟨rfl, rfl, ?_⟩
  decide

/-- Claim C7 as amended: the role defaults to "viewer" when the
registration payload leaves it unstated, and the stored role is exactly
the client-supplied string — for registration as well as for role
update — with no validation against the enumerated set. -/
theorem claim_C7_amended_roles :
    (∀ un em pw, ({ username := un, email := em, password := pw } : UserCreate).role =
      some "viewer") ∧
    (∀ (db : UserDB) (uc : UserCreate) (salt : String) (u : User) (db2 : UserDB),
      create_user_endpoint db uc salt = (.ok u, db2) → u.role = uc.role) ∧
    (∀ (cu : User) (db : UserDB) (uid : Nat) (r : String) (u : User) (db2 : UserDB),
      update_user_role_endpoint cu db uid r = (.ok u, db2) → u.role = some r) := by
  refine ⟨fun un em pw => rfl, ?_, ?_⟩
  · intro db uc salt u db2 h
    unfold create_user_endpoint at h
    cases h1 : crud_get_user_by_username db uc.username with
    | some v => rw [h1] at h; exact Except.noConfusion (congrArg Prod.fst h)
    | none =>
        rw [h1] at h
        cases h2 : crud_get_user_by_email db uc.email with
        | some v => rw [h2] at h; exact Except.noConfusion (congrArg Prod.fst h)
        | none =>
            rw [h2] at h
            have hu := Except.ok.inj (congrArg Prod.fst h)
            rw [← hu]
            rfl
  · intro cu db uid r u db2 h
    unfold update_user_role_endpoint at h
    by_cases hadmin : cu.role ≠ some "admin"
    · rw [if_pos hadmin] at h
      exact Except.noConfusion (congrArg Prod.fst h)
    · rw [if_neg hadmin] at h
      unfold crud_update_user_role at h
      cases h1 : crud_get_user db uid with
      | none => rw [h1] at h; exact Except.noConfusion (congrArg Prod.fst h)
      | some v =>
          rw [h1] at h
          have hu := Except.ok.inj (congrArg Prod.fst h)
          rw [← hu]

theorem claim_C7_amended_roles_witness :
    create_user_endpoint emptyUserDB roleCreate "s3" =
      (.ok roleUser, (crud_create_user emptyUserDB roleCreate "s3").2) ∧
    roleUser.role = roleCreate.role :=
  ⟨rfl,
    claim_C7_amended_roles.2.1 emptyUserDB roleCreate "s3" roleUser
      (crud_create_user emptyUserDB roleCreate "s3").2 rfl⟩

/-- Claim C10: document deletion performs no ownership or role check —
for any authenticated user and any existing document, the delete
handler succeeds, returns the document, and removes it; likewise the
single read returns it, the listing returns the page of the full
unfiltered table, and the download (when the blob is stored) returns
the file; and none of the four results depend on which user calls. -/
theorem claim_C10_delete_unrestricted (u : User) (db : DocumentDB) (document_id : Nat)
    (d : Document) (hdoc : crud_get_document db document_id = some d) :
    delete_document_endpoint u db document_id =
      (.ok (some d),
       { db with docs := db.docs.filter (fun v => v.id != document_id) }) ∧
    crud_get_document (delete_document_endpoint u db document_id).2 document_id = none ∧
    read_document_endpoint u db document_id = .ok d ∧
    (∀ skip limit, read_documents_endpoint u db skip limit = (db.docs.drop skip).take limit) ∧
    (∀ (fs : FileStore) (content : List Nat), dictFind fs d.filename = some content →
      download_document_endpoint u db fs document_id = .ok (d.filename, content)) ∧
    (∀ u2 : User,
      delete_document_endpoint u2 db document_id =
        delete_document_endpoint u db document_id ∧
      read_document_endpoint u2 db document_id =
        read_document_endpoint u db document_id ∧
      (∀ skip limit, read_documents_endpoint u2 db skip limit =
        read_documents_endpoint u db skip limit) ∧
      (∀ fs : FileStore, download_document_endpoint u2 db fs document_id =
        download_document_endpoint u db fs document_id)) := by
  have hdel : delete_document_endpoint u db document_id =
      (.ok (some d),
       { db with docs := db.docs.filter (fun v => v.id != document_id) }) := by
    unfold delete_document_endpoint crud_delete_document
    rw [hdoc]
  refine ⟨hdel, ?_, ?_, ?_, ?_, ?_⟩
  · rw [hdel]
    exact find_filter_ne_eq_none (fun v => v.id) db.docs document_id
  · unfold read_document_endpoint
    rw [hdoc]
  · intro skip limit
    rfl
  · intro fs content hcontent
    unfold download_document_endpoint
    rw [hdoc]
    simp [hcontent]
  · intro u2
    exact ⟨rfl, rfl, fun skip limit => rfl, fun fs => rfl⟩

/-- Fixture: a blob store holding the sample document's bytes under its
recorded filename. -/
def sampleFS : FileStore := [(['d', '.', 't', 'x', 't'], [1, 2, 3])]

theorem claim_C10_delete_unrestricted_witness :
    crud_get_document sampleDocDB 1 = some sampleDoc ∧
    dictFind sampleFS sampleDoc.filename = some [1, 2, 3] ∧
    delete_document_endpoint sampleViewer sampleDocDB 1 =
      (.ok (some sampleDoc), { next_id := 2, docs := [] }) ∧
    download_document_endpoint sampleViewer sampleDocDB sampleFS 1 =
      .ok (sampleDoc.filename, [1, 2, 3]) :=
  ⟨rfl, rfl,
    by
      have h := (claim_C10_delete_unrestricted sampleViewer sampleDocDB 1 sampleDoc rfl).1
      rw [h]
      rfl,
    (claim_C10_delete_unrestricted sampleViewer sampleDocDB 1 sampleDoc
      rfl).2.2.2.2.1 sampleFS [1, 2, 3] rfl⟩

end Backend
